import Mathlib

/-!
# reCAPTCHA token validation (package `recaptcha`)

A shallow embedding of `recaptcha.go`: the constructor `NewReCaptchaValidator`, the two entry
points `ValidateToken` / `ValidateTokenForIP`, their shared body `doValidation` and the custom
decoder `ValidationResponse.UnmarshalJSON`.

The Go standard library calls the package makes (`url.Values.Add`, `json.Unmarshal`,
`time.Parse(time.RFC3339, ·)`, `ioutil.ReadAll`, `Body.Close`) are embedded as executable
definitions that follow the library's behaviour for the types involved here.  Byte strings
are embedded as `String` (well-formed UTF-8 text).
-/

namespace Recaptcha

/-! ## Go values -/

/-- Go `error` values that can reach a caller of this package. -/
inductive GoError where
  /-- A value made by `errors.New`. -/
  | errorString (msg : String)
  /-- A `*json.SyntaxError`: the body is not JSON text. -/
  | invalidJSON
  /-- A `*json.UnmarshalTypeError`: JSON value of kind `value` met at struct field `field`
  (`field = ""` at the top level). -/
  | unmarshalTypeError (value : String) (field : String)
  /-- A `*time.ParseError` for the input `value`. -/
  | parseError (value : String)
  /-- Any error value produced outside the package (transport, body reader). -/
  | foreign (tag : String)
  deriving DecidableEq, Repr

/-- The result of calling a Go function: it returns a value or the goroutine panics. -/
inductive Completion (α : Type) where
  | returned (x : α)
  | panicked
  deriving DecidableEq, Repr

/-! ## `url.Values` -/

/-- Go `url.Values` is `map[string][]string`: a key is absent (`none`) or bound to a slice. -/
def Values : Type := String → Option (List String)

/-- The literal `url.Values{}`. -/
def Values.empty : Values := fun _ => none

/-- Method `Values.Add`: `v[key] = append(v[key], value)`. -/
def Values.Add (v : Values) (key value : String) : Values :=
  fun k => if k = key then some ((v key).getD [] ++ [value]) else v k

/-! ## `time.Time` and `time.Parse(time.RFC3339, ·)` -/

/-- An instant, as `time.Time` denotes it: seconds since the Unix epoch and nanoseconds. -/
structure Time where
  unixSec : Int
  nsec : Nat
  deriving DecidableEq, Repr

/-- The zero `time.Time`: January 1, year 1, 00:00:00 UTC. -/
def Time.zero : Time := ⟨-62135596800, 0⟩

def isDigit (c : Char) : Bool := decide (48 ≤ c.toNat) && decide (c.toNat ≤ 57)

def digitVal (c : Char) : Nat := c.toNat - 48

/-- Go `time.getnum`: one or two leading decimal digits (exactly two when `fixed`). -/
def getnum (s : List Char) (fixed : Bool) : Option (Nat × List Char) :=
  match s with
  | [] => none
  | a :: rest =>
    if !isDigit a then none
    else
      match rest with
      | [] => if fixed then none else some (digitVal a, [])
      | b :: rest2 =>
        if !isDigit b then (if fixed then none else some (digitVal a, b :: rest2))
        else some (digitVal a * 10 + digitVal b, rest2)

/-- Go `time.skip` for a one-character literal of the layout. -/
def skip (value : List Char) (c : Char) : Option (List Char) :=
  match value with
  | [] => none
  | a :: rest => if a = c then some rest else none

def isLeap (year : Nat) : Bool :=
  year % 4 == 0 && (year % 100 != 0 || year % 400 == 0)

/-- Go `time.daysIn`. -/
def daysIn (month year : Nat) : Nat :=
  if month = 2 then (if isLeap year then 29 else 28)
  else if month = 4 ∨ month = 6 ∨ month = 9 ∨ month = 11 then 30
  else 31

/-- Days of a non-leap year before the first of `month` (Go `daysBefore`). -/
def daysBefore (month : Nat) : Nat :=
  match month with
  | 1 => 0 | 2 => 31 | 3 => 59 | 4 => 90 | 5 => 120 | 6 => 151
  | 7 => 181 | 8 => 212 | 9 => 243 | 10 => 273 | 11 => 304 | _ => 334

/-- Go `time.Date(year, month, day, hour, min, sec, nsec, UTC)` followed by the shift
by the zone offset, for fields already in range: the instant in the proleptic Gregorian
calendar. -/
def Date (year month day hour min sec nsec : Nat) (zoneOffset : Int) : Time :=
  let leapDays : Nat := (year + 3) / 4 - (year + 99) / 100 + (year + 399) / 400
  let yday : Nat := daysBefore month + (if isLeap year && decide (2 < month) then 1 else 0) + (day - 1)
  let days : Int := ((365 * year + leapDays + yday : Nat) : Int) - 719528
  ⟨days * 86400 + ((hour * 3600 + min * 60 + sec : Nat) : Int) - zoneOffset, nsec⟩

def takeDigits : List Char → List Char × List Char
  | [] => ([], [])
  | c :: cs =>
    if isDigit c then
      let r := takeDigits cs
      (c :: r.1, r.2)
    else ([], c :: cs)

def digitsVal (ds : List Char) : Nat := ds.foldl (fun n c => n * 10 + digitVal c) 0

/-- The fractional second `time.Parse` accepts after the seconds field although the layout
has none: `.` or `,` followed by digits, of which the first nine count
(Go `parseNanoseconds`). -/
def parseFraction (value : List Char) : Nat × List Char :=
  match value with
  | p :: d :: rest =>
    if (p = '.' ∨ p = ',') ∧ isDigit d = true then
      let r := takeDigits (d :: rest)
      let ds := r.1.take 9
      (digitsVal ds * 10 ^ (9 - ds.length), r.2)
    else (0, value)
  | _ => (0, value)

/-- The layout element `Z07:00`: a literal `Z`, or sign, two digits, colon, two digits.
Returns the offset in seconds east of UTC and the rest of the input. -/
def parseZone (value : List Char) : Option (Int × List Char) :=
  match value with
  | [] => none
  | z :: rest0 =>
    if z = 'Z' then some (0, rest0)
    else
      match value with
      | sign :: h1 :: h2 :: colon :: m1 :: m2 :: rest =>
        if colon ≠ ':' then none
        else
          match getnum [h1, h2] true, getnum [m1, m2] true with
          | some (hr, _), some (mm, _) =>
            if 24 < hr ∨ 60 < mm then none
            else
              let off : Int := (((hr * 60 + mm) * 60 : Nat) : Int)
              if sign = '+' then some (off, rest)
              else if sign = '-' then some (-off, rest)
              else none
          | _, _ => none
      | _ => none

/-- Go `time.Parse(time.RFC3339, value)`, the layout being `2006-01-02T15:04:05Z07:00`:
four-digit year, two-digit month and day, an hour of one or two digits, two-digit minute and
second, an optional fractional second, the zone, and nothing after it. -/
def timeParse (value : String) : Except GoError Time :=
  let bad : Except GoError Time := .error (.parseError value)
  match value.toList with
  | y1 :: y2 :: y3 :: y4 :: v1 =>
    if !(isDigit y1 && isDigit y2 && isDigit y3 && isDigit y4) then bad
    else
      let year := digitsVal [y1, y2, y3, y4]
      match (skip v1 '-').bind (fun v => getnum v true) with
      | none => bad
      | some (month, v2) =>
        if month = 0 ∨ 12 < month then bad
        else
          match (skip v2 '-').bind (fun v => getnum v true) with
          | none => bad
          | some (day, v3) =>
            match (skip v3 'T').bind (fun v => getnum v false) with
            | none => bad
            | some (hour, v4) =>
              if 24 ≤ hour then bad
              else
                match (skip v4 ':').bind (fun v => getnum v true) with
                | none => bad
                | some (min, v5) =>
                  if 60 ≤ min then bad
                  else
                    match (skip v5 ':').bind (fun v => getnum v true) with
                    | none => bad
                    | some (sec, v6) =>
                      if 60 ≤ sec then bad
                      else
                        let fr := parseFraction v6
                        match parseZone fr.2 with
                        | none => bad
                        | some (zoneOffset, v7) =>
                          if v7 ≠ [] then bad
                          else if day < 1 ∨ daysIn month year < day then bad
                          else .ok (Date year month day hour min sec fr.1 zoneOffset)
  | _ => bad

/-! ## JSON text (`encoding/json` scanner and `unquote`) -/

/-- A JSON value, as the decoder meets it in a text that passed `checkValid`.  A number keeps
its literal; the members of an object keep their order and their duplicates. -/
inductive JSON where
  | null
  | bool (b : Bool)
  | num (text : String)
  | str (s : String)
  | arr (elems : List JSON)
  | obj (members : List (String × JSON))

def dquote : Char := Char.ofNat 34

def backslash : Char := Char.ofNat 92

def lbrace : Char := Char.ofNat 123

def rbrace : Char := Char.ofNat 125

/-- The scanner's `isSpace`: space, tab, carriage return, line feed. -/
def isSpace (c : Char) : Bool :=
  c.toNat = 32 || c.toNat = 9 || c.toNat = 13 || c.toNat = 10

def skipSpace : List Char → List Char
  | [] => []
  | c :: cs => if isSpace c then skipSpace cs else c :: cs

def hexVal (c : Char) : Option Nat :=
  let n := c.toNat
  if 48 ≤ n ∧ n ≤ 57 then some (n - 48)
  else if 97 ≤ n ∧ n ≤ 102 then some (n - 87)
  else if 65 ≤ n ∧ n ≤ 70 then some (n - 55)
  else none

/-- Four hexadecimal digits, as after `\u` (Go `getu4` without the two leading characters). -/
def hex4 (cs : List Char) : Option (Nat × List Char) :=
  match cs with
  | a :: b :: c :: d :: rest =>
    match hexVal a, hexVal b, hexVal c, hexVal d with
    | some x, some y, some z, some w => some (((x * 16 + y) * 16 + z) * 16 + w, rest)
    | _, _, _, _ => none
  | _ => none

/-- The escape `\uXXXX` at the head of the input, if there is one (Go `getu4`). -/
def getu4 (cs : List Char) : Option (Nat × List Char) :=
  match cs with
  | b :: u :: rest => if b = backslash ∧ u = 'u' then hex4 rest else none
  | _ => none

/-- The character a simple escape letter stands for. -/
def escapeChar (c : Char) : Option Char :=
  if c = dquote then some dquote
  else if c = backslash then some backslash
  else if c = '/' then some '/'
  else if c = 'b' then some (Char.ofNat 8)
  else if c = 'f' then some (Char.ofNat 12)
  else if c = 'n' then some (Char.ofNat 10)
  else if c = 'r' then some (Char.ofNat 13)
  else if c = 't' then some (Char.ofNat 9)
  else none

/-- The rune of a `\u` escape with value `rr`, looking at the rest of the input for the low
half of a surrogate pair; an unpaired surrogate becomes U+FFFD. -/
def decodeU (rr : Nat) (rest : List Char) : Char × List Char :=
  if 0xD800 ≤ rr ∧ rr < 0xE000 then
    match getu4 rest with
    | some (rr1, rest2) =>
      if rr < 0xDC00 ∧ 0xDC00 ≤ rr1 ∧ rr1 < 0xE000 then
        (Char.ofNat ((rr - 0xD800) * 1024 + (rr1 - 0xDC00) + 0x10000), rest2)
      else (Char.ofNat 0xFFFD, rest)
    | none => (Char.ofNat 0xFFFD, rest)
  else (Char.ofNat rr, rest)

/-- A string literal after its opening quote: the decoded string and the input after the
closing quote.  A control character, a bad escape or the end of input is an error. -/
def parseString : Nat → List Char → List Char → Option (String × List Char)
  | 0, _, _ => none
  | fuel + 1, cs, acc =>
    match cs with
    | [] => none
    | c :: rest =>
      if c = dquote then some (String.mk acc.reverse, rest)
      else if c.toNat < 32 then none
      else if c = backslash then
        match rest with
        | [] => none
        | e :: rest2 =>
          if e = 'u' then
            match hex4 rest2 with
            | none => none
            | some (rr, rest3) =>
              let r := decodeU rr rest3
              parseString fuel r.2 (r.1 :: acc)
          else
            match escapeChar e with
            | none => none
            | some x => parseString fuel rest2 (x :: acc)
      else parseString fuel rest (c :: acc)

/-- A number literal: `-? (0 | [1-9][0-9]*) (. [0-9]+)? ([eE] [+-]? [0-9]+)?`. -/
def parseNumber (cs : List Char) : Option (String × List Char) :=
  let signPart : List Char × List Char :=
    match cs with
    | c :: rest => if c = '-' then ([c], rest) else ([], cs)
    | [] => ([], cs)
  let intPart : Option (List Char × List Char) :=
    match signPart.2 with
    | [] => none
    | c :: rest =>
      if c = '0' then some ([c], rest)
      else if isDigit c then
        let r := takeDigits rest
        some (c :: r.1, r.2)
      else none
  match intPart with
  | none => none
  | some (ip, r1) =>
    let fracPart : Option (List Char × List Char) :=
      match r1 with
      | c :: rest =>
        if c = '.' then
          let r := takeDigits rest
          if r.1 = [] then none else some (c :: r.1, r.2)
        else some ([], r1)
      | [] => some ([], r1)
    match fracPart with
    | none => none
    | some (fp, r2) =>
      let expPart : Option (List Char × List Char) :=
        match r2 with
        | c :: rest =>
          if c = 'e' ∨ c = 'E' then
            let sg : List Char × List Char :=
              match rest with
              | s :: rest2 => if s = '+' ∨ s = '-' then ([s], rest2) else ([], rest)
              | [] => ([], rest)
            let r := takeDigits sg.2
            if r.1 = [] then none else some (c :: (sg.1 ++ r.1), r.2)
          else some ([], r2)
        | [] => some ([], r2)
      match expPart with
      | none => none
      | some (ep, r3) => some (String.mk (signPart.1 ++ ip ++ fp ++ ep), r3)

/-- The input after the given literal word, if the input starts with it. -/
def expectWord (word : List Char) (cs : List Char) : Option (List Char) :=
  match word, cs with
  | [], _ => some cs
  | _ :: _, [] => none
  | w :: ws, c :: rest => if w = c then expectWord ws rest else none

/-- The elements of an array after the first one has begun: value, then `,` or `]`. -/
def parseElems (pv : List Char → Option (JSON × List Char)) :
    Nat → List Char → List JSON → Option (List JSON × List Char)
  | 0, _, _ => none
  | fuel + 1, cs, acc =>
    match pv cs with
    | none => none
    | some (v, rest) =>
      match skipSpace rest with
      | [] => none
      | c :: rest2 =>
        if c = ',' then parseElems pv fuel rest2 (v :: acc)
        else if c = ']' then some ((v :: acc).reverse, rest2)
        else none

/-- The members of an object: string key, `:`, value, then `,` or the closing brace. -/
def parseMembers (pv : List Char → Option (JSON × List Char)) :
    Nat → List Char → List (String × JSON) → Option (List (String × JSON) × List Char)
  | 0, _, _ => none
  | fuel + 1, cs, acc =>
    match skipSpace cs with
    | [] => none
    | q :: rest =>
      if q ≠ dquote then none
      else
        match parseString rest.length.succ rest [] with
        | none => none
        | some (key, rest2) =>
          match skipSpace rest2 with
          | [] => none
          | colon :: rest3 =>
            if colon ≠ ':' then none
            else
              match pv rest3 with
              | none => none
              | some (v, rest4) =>
                match skipSpace rest4 with
                | [] => none
                | c :: rest5 =>
                  if c = ',' then parseMembers pv fuel rest5 ((key, v) :: acc)
                  else if c = rbrace then some (((key, v) :: acc).reverse, rest5)
                  else none

/-- One JSON value after optional white space.  The first argument is the number of further
nesting levels the scanner allows (`maxNestingDepth`). -/
def parseValue : Nat → List Char → Option (JSON × List Char)
  | depth, cs =>
    match skipSpace cs with
    | [] => none
    | c :: rest =>
      if c = dquote then
        (parseString rest.length.succ rest []).map (fun r => (JSON.str r.1, r.2))
      else if c = 't' then (expectWord "rue".toList rest).map (fun r => (JSON.bool true, r))
      else if c = 'f' then (expectWord "alse".toList rest).map (fun r => (JSON.bool false, r))
      else if c = 'n' then (expectWord "ull".toList rest).map (fun r => (JSON.null, r))
      else if c = '-' ∨ isDigit c = true then
        (parseNumber (c :: rest)).map (fun r => (JSON.num r.1, r.2))
      else if c = '[' then
        match depth with
        | 0 => none
        | d + 1 =>
          match skipSpace rest with
          | [] => none
          | e :: rest2 =>
            if e = ']' then some (JSON.arr [], rest2)
            else (parseElems (parseValue d) rest.length.succ rest []).map
              (fun r => (JSON.arr r.1, r.2))
      else if c = lbrace then
        match depth with
        | 0 => none
        | d + 1 =>
          match skipSpace rest with
          | [] => none
          | e :: rest2 =>
            if e = rbrace then some (JSON.obj [], rest2)
            else (parseMembers (parseValue d) rest.length.succ rest []).map
              (fun r => (JSON.obj r.1, r.2))
      else none

/-- The JSON value of a whole text, as `json.checkValid` accepts it: one value, white space
around it, at most 10000 levels of nesting. -/
def jsonParse (data : String) : Option JSON :=
  match parseValue 10000 data.toList with
  | none => none
  | some (v, rest) => if skipSpace rest = [] then some v else none

/-! ## The response type and its decoder -/

/-- Go `ValidationResponse`.  `Errors` is a slice: `none` is the nil slice. -/
structure ValidationResponse where
  Success : Bool
  ChallengeTimestamp : Time
  Hostname : String
  PackageName : String
  Errors : Option (List String)
  deriving DecidableEq, Repr

/-- The zero value `ValidationResponse{}`. -/
def ValidationResponse.zero : ValidationResponse :=
  { Success := false, ChallengeTimestamp := Time.zero, Hostname := "", PackageName := "",
    Errors := none }

/-- The anonymous struct of `UnmarshalJSON`: the embedded `*Alias` (it points at the
receiver, so `Alias` here is the receiver's current content) and the raw timestamp. -/
structure AuxValidationResponse where
  Alias : ValidationResponse
  ISOChallengeTimestamp : String
  deriving DecidableEq, Repr

/-- The fields `encoding/json` finds in the anonymous struct, `ChallengeTimestamp` being
tagged `json:"-"`. -/
inductive Field where
  | success
  | hostname
  | packageName
  | errors
  | challengeTs
  deriving DecidableEq, Repr

/-- The JSON name of a field, from its struct tag. -/
def Field.name : Field → String
  | .success => "success"
  | .hostname => "hostname"
  | .packageName => "apk_package_name"
  | .errors => "error-codes"
  | .challengeTs => "challenge_ts"

def fields : List Field := [.success, .hostname, .packageName, .errors, .challengeTs]

/-- Case folding of one rune of a key.  Among all runes only the upper-case letter, and for
`s` and `k` also U+017F and U+212A, fold together with an ASCII lower-case letter. -/
def foldRune (c : Char) : Char :=
  if 65 ≤ c.toNat ∧ c.toNat ≤ 90 then Char.ofNat (c.toNat + 32)
  else if c.toNat = 0x17F then 's'
  else if c.toNat = 0x212A then 'k'
  else c

def foldName (key : String) : List Char := key.toList.map foldRune

/-- The field a key of the JSON object is stored in: the one with that exact name, else the
one equal to it under case folding, else none (the member is skipped). -/
def fieldFor (key : String) : Option Field :=
  match fields.find? (fun f => decide (f.name = key)) with
  | some f => some f
  | none => fields.find? (fun f => decide (f.name.toList = foldName key))

/-- The `Value` of an `UnmarshalTypeError`. -/
def JSON.kind : JSON → String
  | .null => "null"
  | .bool _ => "bool"
  | .num _ => "number"
  | .str _ => "string"
  | .arr _ => "array"
  | .obj _ => "object"

/-- A JSON value stored in a `bool`: the new content and the error to save, if any.
`null` leaves the content as it is. -/
def storeBool (name : String) (old : Bool) (v : JSON) : Bool × Option GoError :=
  match v with
  | .bool b => (b, none)
  | .null => (old, none)
  | other => (old, some (.unmarshalTypeError other.kind name))

/-- A JSON value stored in a `string` (also a `ValidationError`). -/
def storeString (name : String) (old : String) (v : JSON) : String × Option GoError :=
  match v with
  | .str s => (s, none)
  | .null => (old, none)
  | other => (old, some (.unmarshalTypeError other.kind name))

/-- The elements of a JSON array stored one by one in the slots of a slice whose previous
elements are `old`; a slot past them starts as the empty string (spare capacity that an
earlier, longer array of the same object may have left is not tracked).  The error is the
first one met. -/
def storeElems (name : String) : List String → List JSON → List String × Option GoError
  | _, [] => ([], none)
  | old, v :: vs =>
    let x := storeString name (old.headD "") v
    let xs := storeElems name old.tail vs
    (x.1 :: xs.1, x.2.orElse (fun _ => xs.2))

/-- A JSON value stored in a `[]ValidationError`: an array sets the length to its number of
elements, `null` makes the slice nil. -/
def storeSlice (name : String) (old : Option (List String)) (v : JSON) :
    Option (List String) × Option GoError :=
  match v with
  | .arr elems =>
    let r := storeElems name (old.getD []) elems
    (some r.1, r.2)
  | .null => (none, none)
  | other => (old, some (.unmarshalTypeError other.kind name))

/-- The decoder's state while it walks an object: the struct and `d.savedError`. -/
structure DecodeState where
  aux : AuxValidationResponse
  savedError : Option GoError
  deriving DecidableEq, Repr

/-- Go `decodeState.saveError`: only the first error is kept. -/
def DecodeState.save (st : DecodeState) (e : Option GoError) : Option GoError :=
  match st.savedError with
  | some e0 => some e0
  | none => e

/-- One member of the object: find its field, store the value, go on after an error. -/
def decodeMember (st : DecodeState) (m : String × JSON) : DecodeState :=
  match fieldFor m.1 with
  | none => st
  | some .success =>
    let r := storeBool Field.success.name st.aux.Alias.Success m.2
    { aux := { st.aux with Alias := { st.aux.Alias with Success := r.1 } },
      savedError := st.save r.2 }
  | some .hostname =>
    let r := storeString Field.hostname.name st.aux.Alias.Hostname m.2
    { aux := { st.aux with Alias := { st.aux.Alias with Hostname := r.1 } },
      savedError := st.save r.2 }
  | some .packageName =>
    let r := storeString Field.packageName.name st.aux.Alias.PackageName m.2
    { aux := { st.aux with Alias := { st.aux.Alias with PackageName := r.1 } },
      savedError := st.save r.2 }
  | some .errors =>
    let r := storeSlice Field.errors.name st.aux.Alias.Errors m.2
    { aux := { st.aux with Alias := { st.aux.Alias with Errors := r.1 } },
      savedError := st.save r.2 }
  | some .challengeTs =>
    let r := storeString Field.challengeTs.name st.aux.ISOChallengeTimestamp m.2
    { aux := { st.aux with ISOChallengeTimestamp := r.1 }, savedError := st.save r.2 }

/-- The call `json.Unmarshal(data, &auxValidationResponse)`, its target being a pointer to
the pointer `auxValidationResponse`: the pointer afterwards (`none` when it was set to nil)
and the error.  The literal `null` sets the pointer to nil; an object is stored member by
member; any other value is a type error. -/
def unmarshalAux (data : String) (aux : AuxValidationResponse) :
    Option AuxValidationResponse × Option GoError :=
  match jsonParse data with
  | none => (some aux, some .invalidJSON)
  | some .null => (none, none)
  | some (.obj members) =>
    let st := members.foldl decodeMember { aux := aux, savedError := none }
    (some st.aux, st.savedError)
  | some other => (some aux, some (.unmarshalTypeError other.kind ""))

/-- Method `(*ValidationResponse).UnmarshalJSON`: the receiver's content afterwards and the
error returned, or a panic. -/
def ValidationResponse.UnmarshalJSON (r : ValidationResponse) (data : String) :
    Completion (ValidationResponse × Option GoError) :=
  let auxValidationResponse : AuxValidationResponse := { Alias := r, ISOChallengeTimestamp := "" }
  match unmarshalAux data auxValidationResponse with
  | (some aux, some err) => .returned (aux.Alias, some err)
  | (none, some err) => .returned (r, some err)
  -- `auxValidationResponse.ISOChallengeTimestamp` on a nil pointer
  | (none, none) => .panicked
  | (some aux, none) =>
    match timeParse aux.ISOChallengeTimestamp with
    | .error err => .returned (aux.Alias, some err)
    | .ok challengeTimestamp =>
      .returned ({ aux.Alias with ChallengeTimestamp := challengeTimestamp }, none)

/-- The call `json.Unmarshal(data, r)` for `r : *ValidationResponse`: a text that is not JSON
is a syntax error and leaves `r` alone; otherwise the value, `null` included, goes to
`r.UnmarshalJSON`, whose error is returned as it is.  (The method gets the text of the value,
that is `data` without the white space around it, which the decoder skips.) -/
def jsonUnmarshal (data : String) (r : ValidationResponse) :
    Completion (ValidationResponse × Option GoError) :=
  match jsonParse data with
  | none => .returned (r, some .invalidJSON)
  | some _ => r.UnmarshalJSON data

/-! ## The validator -/

def siteVerifyAPIBaseURL : String := "https://www.google.com/recaptcha/api/siteverify"

/-- An `io.ReadCloser` holding a reply: what `ioutil.ReadAll` returns on it. -/
structure Body where
  readAll : Except GoError String

/-- The part of `*http.Response` the package uses; `none` is the nil interface. -/
structure Response where
  Body : Option Body

/-- Go `httpPostForm`: the response pointer (`none` is nil) and the error (`none` is nil). -/
def httpPostForm : Type := String → Values → Option Response × Option GoError

/-- Go `Validator`. -/
structure Validator where
  secretKey : String
  postForm : httpPostForm

/-- What a call does to the outside, in order. -/
inductive Event where
  | postForm (url : String) (data : Values)
  | readAll
  | close

/-- One execution of a validation call: its events and its completion (the returned
response pointer and error, or a panic). -/
structure Run where
  events : List Event
  result : Completion (Option ValidationResponse × Option GoError)

/-- Go `NewReCaptchaValidator`; `PostForm` stands for `http.PostForm`. -/
def NewReCaptchaValidator (PostForm : httpPostForm) (sk : String) :
    Option Validator × Option GoError :=
  if sk = "" then (none, some (.errorString "no secret key given"))
  else (some { secretKey := sk, postForm := PostForm }, none)

/-- Go `(*Validator).doValidation`; `ipAddress = none` is the nil pointer. -/
def Validator.doValidation (v : Validator) (token : String) (ipAddress : Option String) : Run :=
  let params := Values.empty
  let params := params.Add "secret" v.secretKey
  let params := params.Add "response" token
  let params :=
    match ipAddress with
    | some ip => params.Add "remoteip" ip
    | none => params
  let call := Event.postForm siteVerifyAPIBaseURL params
  match v.postForm siteVerifyAPIBaseURL params with
  | (_, some err) => { events := [call], result := .returned (none, some err) }
  -- `req.Body` on a nil `req`
  | (none, none) => { events := [call], result := .panicked }
  | (some req, none) =>
    match req.Body with
    -- `req.Body.Close` on a nil interface
    | none => { events := [call], result := .panicked }
    | some body =>
      -- the deferred `Close` runs when the function returns or panics
      match body.readAll with
      | .error err => { events := [call, .readAll, .close], result := .returned (none, some err) }
      | .ok data =>
        let r := ValidationResponse.zero
        match jsonUnmarshal data r with
        | .panicked => { events := [call, .readAll, .close], result := .panicked }
        | .returned (r, err) =>
          { events := [call, .readAll, .close], result := .returned (some r, err) }

/-- Go `(*Validator).ValidateToken`. -/
def Validator.ValidateToken (v : Validator) (token : String) : Run :=
  v.doValidation token none

/-- Go `(*Validator).ValidateTokenForIP`. -/
def Validator.ValidateTokenForIP (v : Validator) (token ipAddress : String) : Run :=
  v.doValidation token (some ipAddress)

/-! ## Values of the test file -/

def mockSK : String := "mockSecretKey"

def mockToken : String := "mockToken"

def mockIPAddress : String := "192.168.1.1"

def mockErrorResponse : String :=
  "\x7b\n\t\t\"success\": false,\n\t\t\"error-codes\": [\n\t\t\t\"missing-input-response\",\n\t\t\t\"missing-input-secret\"\n\t\t]\n\t\x7d"

def mockSuccessResponse : String :=
  "\x7b\n\t\t\"success\": true,\n\t\t\"challenge_ts\": \"2017-09-18T22:28:24Z\",\n\t\t\"hostname\": \"www.example.com\"\n\t\x7d"

/-- The test's `mockPostForm` of a client with `mockErr: nil` and a body reading `content`. -/
def mockPostForm (content : String) : httpPostForm :=
  fun _ _ => (some { Body := some { readAll := .ok content } }, none)

/-- The test's validator: `NewReCaptchaValidator(mockSK)` with `postForm` replaced. -/
def mockValidator (content : String) : Validator :=
  { secretKey := mockSK, postForm := mockPostForm content }

/-- A reply whose `challenge_ts` is the unparsable string of the spec, `not-a-date`. -/
def malformedTimestampResponse : String :=
  "\x7b\"success\": true, \"challenge_ts\": \"not-a-date\", \"hostname\": \"www.example.com\"\x7d"

/-- A reply whose `challenge_ts` is the empty string. -/
def emptyTimestampResponse : String :=
  "\x7b\"success\": false, \"challenge_ts\": \"\"\x7d"

/-- A reply whose `challenge_ts` is the leap-second example of RFC 3339, section 5.8. -/
def leapSecondResponse : String :=
  "\x7b\"success\": true, \"challenge_ts\": \"1990-12-31T23:59:60Z\", \"hostname\": \"www.example.com\"\x7d"

/-- A reply whose `challenge_ts` is written with the lower-case `t` and `z` that RFC 3339,
section 5.6, allows. -/
def lowerCaseTimestampResponse : String :=
  "\x7b\"success\": true, \"challenge_ts\": \"2017-09-18t22:28:24z\", \"hostname\": \"www.example.com\"\x7d"

/-- A reply whose `challenge_ts` has ten digits of fractional second. -/
def longFractionResponse : String :=
  "\x7b\"success\": true, \"challenge_ts\": \"2017-09-18T22:28:24.1234567891Z\"\x7d"

/-- A transport that fails with the given error and no response. -/
def failingPostForm (e : GoError) : httpPostForm :=
  fun _ _ => (none, some e)

/-! ## Statement vocabulary -/

/-- The transport answers every call, without error, with a response whose body reads as
`content`. -/
def Replies (pf : httpPostForm) (content : String) : Prop :=
  ∀ url data, pf url data = (some { Body := some { readAll := .ok content } }, none)

/-- The members of a reply object of the wire contract: `success`, and each of
`challenge_ts`, `hostname`, `apk_package_name` and `error-codes` when it is given. -/
def replyMembers (s : Bool) (t h p : Option String) (es : Option (List String)) :
    List (String × JSON) :=
  [("success", JSON.bool s)]
    ++ (t.map (fun x => ("challenge_ts", JSON.str x))).toList
    ++ (h.map (fun x => ("hostname", JSON.str x))).toList
    ++ (p.map (fun x => ("apk_package_name", JSON.str x))).toList
    ++ (es.map (fun l => ("error-codes", JSON.arr (l.map JSON.str)))).toList

/-- The parameter set of a validation call as the spec words it: `secret` and `response`,
and `remoteip` only when an address is given. -/
def formData (secret token : String) (ip : Option String) : Values :=
  fun k =>
    if k = "secret" then some [secret]
    else if k = "response" then some [token]
    else if k = "remoteip" then ip.map (fun a => [a])
    else none

/-- The calls of the transport in a run: URL and form data of each, in order. -/
def Run.posts (r : Run) : List (String × Values) :=
  r.events.filterMap (fun e =>
    match e with
    | .postForm url data => some (url, data)
    | _ => none)

/-! ## RFC 3339 timestamps and the instants they denote -/

/-- The Gregorian leap-year rule: every fourth year, except a century year that is not a
multiple of 400. -/
def leapYear (y : Nat) : Bool := (y % 4 == 0 && y % 100 != 0) || y % 400 == 0

/-- The number of days of a month (RFC 3339, section 5.7). -/
def monthLength (y m : Nat) : Nat :=
  match m with
  | 1 => 31 | 2 => if leapYear y then 29 else 28 | 3 => 31 | 4 => 30 | 5 => 31 | 6 => 30
  | 7 => 31 | 8 => 31 | 9 => 30 | 10 => 31 | 11 => 30 | 12 => 31 | _ => 0

/-- The days of the years `0 .. y - 1`. -/
def daysBeforeYear : Nat → Nat
  | 0 => 0
  | y + 1 => daysBeforeYear y + (if leapYear y then 366 else 365)

/-- The days of the months `1 .. m` of year `y`. -/
def daysOfMonths (y : Nat) : Nat → Nat
  | 0 => 0
  | m + 1 => daysOfMonths y m + monthLength y (m + 1)

/-- The zone of an RFC 3339 timestamp: `Z`, or a numeric offset `+hh:mm` / `-hh:mm`. -/
inductive Zone where
  | utc
  | offset (negative : Bool) (hh mm : Nat)
  deriving DecidableEq, Repr

/-- An RFC 3339 `date-time` by its fields; `fraction` holds the digits of `time-secfrac`
(empty when the timestamp has none). -/
structure Timestamp where
  year : Nat
  month : Nat
  day : Nat
  hour : Nat
  minute : Nat
  second : Nat
  fraction : List Nat
  zone : Zone
  deriving DecidableEq, Repr

/-- The field ranges of RFC 3339 (sections 5.6 and 5.7), without the leap second `60`, and
with at most nine digits of fractional second. -/
def Timestamp.Valid (ts : Timestamp) : Prop :=
  ts.year ≤ 9999 ∧ 1 ≤ ts.month ∧ ts.month ≤ 12
    ∧ 1 ≤ ts.day ∧ ts.day ≤ monthLength ts.year ts.month
    ∧ ts.hour ≤ 23 ∧ ts.minute ≤ 59 ∧ ts.second ≤ 59
    ∧ (∀ d ∈ ts.fraction, d ≤ 9) ∧ ts.fraction.length ≤ 9
    ∧ match ts.zone with
      | .utc => True
      | .offset _ hh mm => hh ≤ 23 ∧ mm ≤ 59

def digitChar : Nat → Char
  | 0 => '0' | 1 => '1' | 2 => '2' | 3 => '3' | 4 => '4'
  | 5 => '5' | 6 => '6' | 7 => '7' | 8 => '8' | _ => '9'

def twoDigits (n : Nat) : List Char := [digitChar (n / 10), digitChar (n % 10)]

def fourDigits (n : Nat) : List Char :=
  [digitChar (n / 1000), digitChar (n / 100 % 10), digitChar (n / 10 % 10), digitChar (n % 10)]

def Zone.chars : Zone → List Char
  | .utc => ['Z']
  | .offset negative hh mm =>
    (if negative then '-' else '+') :: (twoDigits hh ++ ':' :: twoDigits mm)

def fractionChars (ds : List Nat) : List Char :=
  match ds with
  | [] => []
  | d :: rest => '.' :: (d :: rest).map digitChar

/-- The text of a timestamp, in the upper-case form of RFC 3339:
`YYYY-MM-DDTHH:MM:SS[.fraction](Z|±hh:mm)`. -/
def Timestamp.text (ts : Timestamp) : String :=
  String.mk (fourDigits ts.year ++ '-' :: (twoDigits ts.month ++ '-' :: (twoDigits ts.day
    ++ 'T' :: (twoDigits ts.hour ++ ':' :: (twoDigits ts.minute ++ ':' :: (twoDigits ts.second
    ++ (fractionChars ts.fraction ++ ts.zone.chars)))))))

/-- The seconds a zone is east of UTC. -/
def Zone.seconds : Zone → Int
  | .utc => 0
  | .offset negative hh mm =>
    if negative then -((hh * 3600 + mm * 60 : Nat) : Int) else ((hh * 3600 + mm * 60 : Nat) : Int)

/-- The nanoseconds of a fractional second: the first digit counts `weight`, the next a
tenth of it, and so on. -/
def fractionNanos : List Nat → Nat → Nat
  | [], _ => 0
  | d :: ds, weight => d * weight + fractionNanos ds (weight / 10)

/-- The instant a timestamp denotes: its civil date and time of day, counted in days and
seconds from 1970-01-01T00:00:00 in the proleptic Gregorian calendar, less the zone offset,
with the fractional second in nanoseconds. -/
def Timestamp.instant (ts : Timestamp) : Time :=
  let dayNumber : Int :=
    ((daysBeforeYear ts.year + daysOfMonths ts.year (ts.month - 1) + (ts.day - 1) : Nat) : Int)
      - (daysBeforeYear 1970 : Nat)
  { unixSec := dayNumber * 86400
      + ((ts.hour * 3600 + ts.minute * 60 + ts.second : Nat) : Int) - ts.zone.seconds,
    nsec := fractionNanos ts.fraction 100000000 }

/-- The timestamp of the test file's success reply, 2017-09-18T22:28:24Z, by its fields. -/
def testTimestamp : Timestamp :=
  { year := 2017, month := 9, day := 18, hour := 22, minute := 28, second := 24,
    fraction := [], zone := Zone.utc }

/-! ## Lemmas on the decoder -/

theorem save_none (st : DecodeState) : st.save none = st.savedError := by
  cases st with
  | mk aux saved => cases saved <;> rfl

theorem decodeMember_success (st : DecodeState) (b : Bool) :
    decodeMember st ("success", JSON.bool b)
      = { aux := { st.aux with Alias := { st.aux.Alias with Success := b } },
          savedError := st.savedError } := by
  have h : fieldFor "success" = some Field.success := by rfl
  simp only [decodeMember, h, storeBool, save_none]

theorem decodeMember_hostname (st : DecodeState) (x : String) :
    decodeMember st ("hostname", JSON.str x)
      = { aux := { st.aux with Alias := { st.aux.Alias with Hostname := x } },
          savedError := st.savedError } := by
  have h : fieldFor "hostname" = some Field.hostname := by rfl
  simp only [decodeMember, h, storeString, save_none]

theorem decodeMember_packageName (st : DecodeState) (x : String) :
    decodeMember st ("apk_package_name", JSON.str x)
      = { aux := { st.aux with Alias := { st.aux.Alias with PackageName := x } },
          savedError := st.savedError } := by
  have h : fieldFor "apk_package_name" = some Field.packageName := by rfl
  simp only [decodeMember, h, storeString, save_none]

theorem decodeMember_challengeTs (st : DecodeState) (x : String) :
    decodeMember st ("challenge_ts", JSON.str x)
      = { aux := { st.aux with ISOChallengeTimestamp := x }, savedError := st.savedError } := by
  have h : fieldFor "challenge_ts" = some Field.challengeTs := by rfl
  simp only [decodeMember, h, storeString, save_none]

theorem storeElems_strings (name : String) (old es : List String) :
    storeElems name old (es.map JSON.str) = (es, none) := by
  induction es generalizing old with
  | nil => rfl
  | cons e es ih => simp [storeElems, storeString, ih]

theorem decodeMember_errors (st : DecodeState) (es : List String) :
    decodeMember st ("error-codes", JSON.arr (es.map JSON.str))
      = { aux := { st.aux with Alias := { st.aux.Alias with Errors := some es } },
          savedError := st.savedError } := by
  have h : fieldFor "error-codes" = some Field.errors := by rfl
  simp only [decodeMember, h, storeSlice, storeElems_strings, save_none]

theorem mem_replyMembers {s : Bool} {t h p : Option String} {es : Option (List String)}
    {m : String × JSON} (hm : m ∈ replyMembers s t h p es) :
    m = ("success", JSON.bool s) ∨ (∃ x, t = some x ∧ m = ("challenge_ts", JSON.str x))
      ∨ (∃ x, h = some x ∧ m = ("hostname", JSON.str x))
      ∨ (∃ x, p = some x ∧ m = ("apk_package_name", JSON.str x))
      ∨ (∃ l : List String, es = some l ∧ m = ("error-codes", JSON.arr (l.map JSON.str))) := by
  simp only [replyMembers, List.mem_append, List.mem_singleton, Option.mem_toList,
    Option.mem_def, Option.map_eq_some'] at hm
  rcases hm with (((hm | ⟨x, hl, hx⟩) | ⟨x, hl, hx⟩) | ⟨x, hl, hx⟩) | ⟨l, hl, hx⟩
  · exact Or.inl hm
  · exact Or.inr (Or.inl ⟨x, hl, hx.symm⟩)
  · exact Or.inr (Or.inr (Or.inl ⟨x, hl, hx.symm⟩))
  · exact Or.inr (Or.inr (Or.inr (Or.inl ⟨x, hl, hx.symm⟩)))
  · exact Or.inr (Or.inr (Or.inr (Or.inr ⟨l, hl, hx.symm⟩)))

/-- Two members of a reply object can be stored in either order. -/
theorem decodeMember_comm {s : Bool} {t h p : Option String} {es : Option (List String)}
    {x y : String × JSON} (hx : x ∈ replyMembers s t h p es)
    (hy : y ∈ replyMembers s t h p es) (st : DecodeState) :
    decodeMember (decodeMember st x) y = decodeMember (decodeMember st y) x := by
  rcases mem_replyMembers hx with rfl | ⟨a, ha, rfl⟩ | ⟨a, ha, rfl⟩ | ⟨a, ha, rfl⟩ | ⟨a, ha, rfl⟩ <;>
  rcases mem_replyMembers hy with rfl | ⟨b, hb, rfl⟩ | ⟨b, hb, rfl⟩ | ⟨b, hb, rfl⟩ | ⟨b, hb, rfl⟩ <;>
  (try (have hab := ha.symm.trans hb; cases hab)) <;>
  simp only [decodeMember_success, decodeMember_hostname, decodeMember_packageName,
    decodeMember_challengeTs, decodeMember_errors]

/-- Storing the members of a reply object, in their listed order. -/
theorem foldl_replyMembers (s : Bool) (t h p : Option String) (es : Option (List String))
    (r : ValidationResponse) (iso : String) :
    (replyMembers s t h p es).foldl decodeMember
        { aux := { Alias := r, ISOChallengeTimestamp := iso }, savedError := none }
      = { aux :=
            { Alias :=
                { Success := s, ChallengeTimestamp := r.ChallengeTimestamp,
                  Hostname := h.getD r.Hostname, PackageName := p.getD r.PackageName,
                  Errors := es.orElse (fun _ => r.Errors) },
              ISOChallengeTimestamp := t.getD iso },
          savedError := none } := by
  cases t <;> cases h <;> cases p <;> cases es <;>
  simp [replyMembers, decodeMember_success, decodeMember_hostname, decodeMember_packageName,
    decodeMember_challengeTs, decodeMember_errors]

/-- Storing the members of a reply object, in any order. -/
theorem foldl_reply_perm {ms : List (String × JSON)} {s : Bool} {t h p : Option String}
    {es : Option (List String)} (hms : ms.Perm (replyMembers s t h p es))
    (r : ValidationResponse) (iso : String) :
    ms.foldl decodeMember
        { aux := { Alias := r, ISOChallengeTimestamp := iso }, savedError := none }
      = { aux :=
            { Alias :=
                { Success := s, ChallengeTimestamp := r.ChallengeTimestamp,
                  Hostname := h.getD r.Hostname, PackageName := p.getD r.PackageName,
                  Errors := es.orElse (fun _ => r.Errors) },
              ISOChallengeTimestamp := t.getD iso },
          savedError := none } := by
  rw [← foldl_replyMembers s t h p es r iso]
  exact hms.foldl_eq' (fun x hx y hy z =>
    decodeMember_comm (hms.subset hx) (hms.subset hy) z) _

/-- The result of a validation call once the transport has delivered a body. -/
theorem doValidation_of_reply (v : Validator) (token : String) (ip : Option String)
    (content : String) (hpost : Replies v.postForm content) :
    (v.doValidation token ip).result
      = match jsonUnmarshal content ValidationResponse.zero with
        | .panicked => .panicked
        | .returned (r, err) => .returned (some r, err) := by
  simp only [Validator.doValidation, hpost _ _]
  cases jsonUnmarshal content ValidationResponse.zero with
  | panicked => rfl
  | returned x => rfl

/-- Decoding the text of a reply object whose members are those of `replyMembers`. -/
theorem jsonUnmarshal_reply {content : String} {ms : List (String × JSON)} {s : Bool}
    {t h p : Option String} {es : Option (List String)}
    (hparse : jsonParse content = some (JSON.obj ms))
    (hms : ms.Perm (replyMembers s t h p es)) :
    jsonUnmarshal content ValidationResponse.zero
      = match timeParse (t.getD "") with
        | .error err =>
          .returned ({ Success := s, ChallengeTimestamp := Time.zero, Hostname := h.getD "",
                       PackageName := p.getD "", Errors := es }, some err)
        | .ok tm =>
          .returned ({ Success := s, ChallengeTimestamp := tm, Hostname := h.getD "",
                       PackageName := p.getD "", Errors := es }, none) := by
  simp only [jsonUnmarshal, hparse, ValidationResponse.UnmarshalJSON, unmarshalAux,
    foldl_reply_perm hms, ValidationResponse.zero]
  cases es <;> cases timeParse (t.getD "") <;> rfl

/-- Storing a member whose key does not belong to the raw timestamp leaves it alone. -/
theorem decodeMember_iso (st : DecodeState) (m : String × JSON)
    (hm : fieldFor m.1 ≠ some Field.challengeTs) :
    (decodeMember st m).aux.ISOChallengeTimestamp = st.aux.ISOChallengeTimestamp := by
  unfold decodeMember
  split
  · rfl
  · rfl
  · rfl
  · rfl
  · rfl
  · next heq => exact absurd heq hm

theorem foldl_decodeMember_iso (post : List (String × JSON)) (st : DecodeState)
    (hpost : ∀ m ∈ post, fieldFor m.1 ≠ some Field.challengeTs) :
    (post.foldl decodeMember st).aux.ISOChallengeTimestamp = st.aux.ISOChallengeTimestamp := by
  induction post generalizing st with
  | nil => rfl
  | cons m post ih =>
    rw [List.foldl_cons, ih _ (fun x hx => hpost x (List.mem_cons_of_mem _ hx))]
    exact decodeMember_iso st m (hpost m (List.mem_cons_self _ _))

/-- No member of an object reaches `ChallengeTimestamp`, which is tagged `json:"-"`. -/
theorem decodeMember_timestamp (st : DecodeState) (m : String × JSON) :
    (decodeMember st m).aux.Alias.ChallengeTimestamp = st.aux.Alias.ChallengeTimestamp := by
  unfold decodeMember
  split <;> rfl

theorem foldl_decodeMember_timestamp (ms : List (String × JSON)) (st : DecodeState) :
    (ms.foldl decodeMember st).aux.Alias.ChallengeTimestamp
      = st.aux.Alias.ChallengeTimestamp := by
  induction ms generalizing st with
  | nil => rfl
  | cons m ms ih => rw [List.foldl_cons, ih, decodeMember_timestamp]

/-- The form data `doValidation` builds is the parameter set of the spec. -/
theorem add_eq_formData (secret token : String) (ip : Option String) :
    (match ip with
      | some a => ((Values.empty.Add "secret" secret).Add "response" token).Add "remoteip" a
      | none => (Values.empty.Add "secret" secret).Add "response" token)
      = formData secret token ip := by
  funext k
  cases ip with
  | none =>
    by_cases h1 : k = "secret"
    · subst h1; simp [Values.Add, Values.empty, formData]
    · by_cases h2 : k = "response"
      · subst h2; simp [Values.Add, Values.empty, formData]
      · by_cases h3 : k = "remoteip"
        · subst h3; simp [Values.Add, Values.empty, formData]
        · simp [Values.Add, Values.empty, formData, h1, h2, h3]
  | some a =>
    by_cases h1 : k = "secret"
    · subst h1; simp [Values.Add, Values.empty, formData]
    · by_cases h2 : k = "response"
      · subst h2; simp [Values.Add, Values.empty, formData]
      · by_cases h3 : k = "remoteip"
        · subst h3; simp [Values.Add, Values.empty, formData]
        · simp [Values.Add, Values.empty, formData, h1, h2, h3]

/-- The events of `doValidation`: one call of the transport, and, once it has delivered a
body, one read and one close. -/
theorem doValidation_events (v : Validator) (token : String) (ip : Option String) :
    (v.doValidation token ip).events
        = [Event.postForm siteVerifyAPIBaseURL (formData v.secretKey token ip)]
      ∨ (v.doValidation token ip).events
        = [Event.postForm siteVerifyAPIBaseURL (formData v.secretKey token ip),
            Event.readAll, Event.close] := by
  rw [← add_eq_formData]
  unfold Validator.doValidation
  simp only []
  generalize v.postForm siteVerifyAPIBaseURL _ = pr
  rcases pr with ⟨_ | req, _ | e⟩
  · exact Or.inl rfl
  · exact Or.inl rfl
  · rcases req with ⟨_ | body⟩
    · exact Or.inl rfl
    · rcases body with ⟨_ | data⟩
      · exact Or.inr rfl
      · simp only []
        cases jsonUnmarshal data ValidationResponse.zero <;> exact Or.inr rfl
  · exact Or.inl rfl

/-- The transport is called once, with the endpoint and the parameter set, whatever it
returns. -/
theorem doValidation_posts (v : Validator) (token : String) (ip : Option String) :
    (v.doValidation token ip).posts
      = [(siteVerifyAPIBaseURL, formData v.secretKey token ip)] := by
  rcases doValidation_events v token ip with h | h <;> simp [Run.posts, h]

/-- A transport error ends `doValidation` before any body is touched. -/
theorem doValidation_transport_error (v : Validator) (token : String) (ip : Option String)
    (e : GoError) (hfail : ∀ url data, (v.postForm url data).2 = some e) :
    (v.doValidation token ip).result = .returned (none, some e)
      ∧ (v.doValidation token ip).events
          = [Event.postForm siteVerifyAPIBaseURL (formData v.secretKey token ip)] := by
  rw [← add_eq_formData]
  unfold Validator.doValidation
  simp only []
  have h := hfail siteVerifyAPIBaseURL
    (match ip with
      | some a => ((Values.empty.Add "secret" v.secretKey).Add "response" token).Add "remoteip" a
      | none => (Values.empty.Add "secret" v.secretKey).Add "response" token)
  revert h
  generalize v.postForm siteVerifyAPIBaseURL _ = pr
  rcases pr with ⟨_ | req, _ | e2⟩
  · intro h; cases h
  · intro h; cases h; exact ⟨rfl, rfl⟩
  · intro h; cases h
  · intro h; cases h; exact ⟨rfl, rfl⟩

/-- `UnmarshalJSON` panics on the literal `null` and on nothing else. -/
theorem unmarshalJSON_panicked_iff (r : ValidationResponse) (content : String) :
    r.UnmarshalJSON content = .panicked ↔ jsonParse content = some JSON.null := by
  unfold ValidationResponse.UnmarshalJSON unmarshalAux
  cases hj : jsonParse content with
  | none => simp
  | some j =>
    cases j with
    | null => simp
    | bool b => simp
    | num t => simp
    | str t => simp
    | arr l => simp
    | obj ms =>
      simp only []
      generalize ms.foldl decodeMember
        { aux := { Alias := r, ISOChallengeTimestamp := "" }, savedError := none } = st
      rcases st with ⟨aux, _ | e⟩
      · simp only []
        cases timeParse aux.ISOChallengeTimestamp <;> simp
      · simp

/-- The decoder on an object whose last `challenge_ts` member is a string that
`time.Parse` rejects. -/
theorem unmarshalJSON_malformed (r0 : ValidationResponse) (content : String)
    (pre post : List (String × JSON)) (s : String)
    (hparse : jsonParse content = some (JSON.obj (pre ++ ("challenge_ts", JSON.str s) :: post)))
    (hlast : ∀ m ∈ post, fieldFor m.1 ≠ some Field.challengeTs)
    (hbad : ∀ tm, timeParse s ≠ .ok tm) :
    ∃ r err, r0.UnmarshalJSON content = .returned (r, some err)
      ∧ r.ChallengeTimestamp = r0.ChallengeTimestamp := by
  simp only [ValidationResponse.UnmarshalJSON, unmarshalAux, hparse]
  generalize hst : (pre ++ ("challenge_ts", JSON.str s) :: post).foldl decodeMember
    { aux := { Alias := r0, ISOChallengeTimestamp := "" }, savedError := none } = st
  have hiso : st.aux.ISOChallengeTimestamp = s := by
    rw [← hst, List.foldl_append, List.foldl_cons, foldl_decodeMember_iso _ _ hlast,
      decodeMember_challengeTs]
  have hts : st.aux.Alias.ChallengeTimestamp = r0.ChallengeTimestamp := by
    rw [← hst, foldl_decodeMember_timestamp]
  cases hsv : st.savedError with
  | some e => exact ⟨_, e, rfl, hts⟩
  | none =>
    simp only [hiso]
    cases hp : timeParse s with
    | error e => exact ⟨_, e, rfl, hts⟩
    | ok tm => exact absurd hp (hbad tm)

/-! ## Lemmas on `timeParse` -/

theorem isLeap_eq_leapYear (y : Nat) : isLeap y = leapYear y := by
  unfold isLeap leapYear
  rw [Bool.eq_iff_iff]
  simp only [Bool.and_eq_true, Bool.or_eq_true, beq_iff_eq, bne_iff_ne, ne_eq]
  omega

theorem leapYear_iff (y : Nat) :
    leapYear y = true ↔ (y % 4 = 0 ∧ y % 100 ≠ 0) ∨ y % 400 = 0 := by
  unfold leapYear
  simp only [Bool.and_eq_true, Bool.or_eq_true, beq_iff_eq, bne_iff_ne, ne_eq]

theorem daysBeforeYear_succ (y : Nat) :
    365 * (y + 1) + ((y + 1 + 3) / 4 - (y + 1 + 99) / 100 + (y + 1 + 399) / 400)
      = 365 * y + ((y + 3) / 4 - (y + 99) / 100 + (y + 399) / 400)
        + (if leapYear y = true then 366 else 365) := by
  by_cases h : leapYear y = true
  · rw [if_pos h]
    rw [leapYear_iff] at h
    omega
  · rw [if_neg h]
    rw [leapYear_iff] at h
    omega

theorem daysBeforeYear_eq (y : Nat) :
    daysBeforeYear y = 365 * y + ((y + 3) / 4 - (y + 99) / 100 + (y + 399) / 400) := by
  induction y with
  | zero => rfl
  | succ y ih => rw [daysBeforeYear, ih, daysBeforeYear_succ]

theorem daysBeforeYear_1970 : daysBeforeYear 1970 = 719528 := by
  rw [daysBeforeYear_eq]

theorem daysIn_eq_monthLength (y m : Nat) (h1 : 1 ≤ m) (h12 : m ≤ 12) :
    daysIn m y = monthLength y m := by
  interval_cases m <;> simp [daysIn, monthLength, isLeap_eq_leapYear]

theorem daysBefore_eq (y m : Nat) (h1 : 1 ≤ m) (h12 : m ≤ 12) :
    daysBefore m + (if (isLeap y && decide (2 < m)) = true then 1 else 0)
      = daysOfMonths y (m - 1) := by
  interval_cases m <;> cases hl : leapYear y <;>
    simp [daysBefore, daysOfMonths, monthLength, isLeap_eq_leapYear, hl]

theorem Date_eq_instant (ts : Timestamp) (h1 : 1 ≤ ts.month) (h12 : ts.month ≤ 12) :
    Date ts.year ts.month ts.day ts.hour ts.minute ts.second
        (fractionNanos ts.fraction 100000000) ts.zone.seconds = ts.instant := by
  unfold Date Timestamp.instant
  simp only [daysBeforeYear_1970, ← daysBefore_eq ts.year ts.month h1 h12, daysBeforeYear_eq]
  congr 2
  push_cast
  ring_nf

theorem isDigit_digitChar (d : Nat) (h : d ≤ 9) : isDigit (digitChar d) = true := by
  interval_cases d <;> decide

theorem digitVal_digitChar (d : Nat) (h : d ≤ 9) : digitVal (digitChar d) = d := by
  interval_cases d <;> decide

theorem digitChar_ne_dot (d : Nat) : digitChar d ≠ '.' ∧ digitChar d ≠ ',' := by
  unfold digitChar
  split <;> decide

theorem getnum_digits (a b : Nat) (ha : a ≤ 9) (hb : b ≤ 9) (rest : List Char)
    (fixed : Bool) :
    getnum (digitChar a :: digitChar b :: rest) fixed = some (a * 10 + b, rest) := by
  simp [getnum, isDigit_digitChar, digitVal_digitChar, ha, hb]

theorem getnum_twoDigits (n : Nat) (h : n ≤ 99) (rest : List Char) (fixed : Bool) :
    getnum (twoDigits n ++ rest) fixed = some (n, rest) := by
  have e : twoDigits n ++ rest = digitChar (n / 10) :: digitChar (n % 10) :: rest := rfl
  rw [e, getnum_digits (n / 10) (n % 10) (by omega) (by omega)]
  congr 2
  omega

theorem skip_cons (c : Char) (rest : List Char) : skip (c :: rest) c = some rest := by
  simp [skip]

theorem takeDigits_digits (ds : List Nat) (hd : ∀ d ∈ ds, d ≤ 9) (rest : List Char)
    (hrest : takeDigits rest = ([], rest)) :
    takeDigits (ds.map digitChar ++ rest) = (ds.map digitChar, rest) := by
  induction ds with
  | nil => simpa using hrest
  | cons d ds ih =>
    have h1 : isDigit (digitChar d) = true := isDigit_digitChar d (hd d (List.mem_cons_self _ _))
    have h2 := ih (fun x hx => hd x (List.mem_cons_of_mem _ hx))
    simp [takeDigits, h1, h2]

theorem takeDigits_zone (z : Zone) : takeDigits z.chars = ([], z.chars) := by
  cases z with
  | utc => decide
  | offset negative hh mm => cases negative <;> simp [Zone.chars, takeDigits] <;> decide

theorem foldl_digits (cs : List Char) (acc : Nat) :
    cs.foldl (fun n c => n * 10 + digitVal c) acc
      = acc * 10 ^ cs.length + cs.foldl (fun n c => n * 10 + digitVal c) 0 := by
  induction cs generalizing acc with
  | nil => simp
  | cons c cs ih =>
    rw [List.foldl_cons, List.foldl_cons, ih (acc * 10 + digitVal c),
      ih (0 * 10 + digitVal c), List.length_cons]
    ring

theorem fractionNanos_eq (ds : List Nat) (k : Nat) (hd : ∀ d ∈ ds, d ≤ 9)
    (hl : ds.length ≤ k + 1) :
    fractionNanos ds (10 ^ k) = digitsVal (ds.map digitChar) * 10 ^ (k + 1 - ds.length) := by
  induction ds generalizing k with
  | nil => simp [fractionNanos, digitsVal]
  | cons d ds ih =>
    have hdv : digitVal (digitChar d) = d := digitVal_digitChar d (hd d (List.mem_cons_self _ _))
    have hds : ∀ x ∈ ds, x ≤ 9 := fun x hx => hd x (List.mem_cons_of_mem _ hx)
    have hV : digitsVal ((d :: ds).map digitChar)
        = d * 10 ^ ds.length + digitsVal (ds.map digitChar) := by
      simp only [digitsVal, List.map_cons, List.foldl_cons]
      rw [foldl_digits, hdv]
      simp
    rw [hV, fractionNanos]
    cases k with
    | zero =>
      have hnil : ds = [] := by
        cases ds with
        | nil => rfl
        | cons x xs => simp at hl
      subst hnil
      simp [fractionNanos, digitsVal]
    | succ k =>
      have hlen : ds.length ≤ k + 1 := by simpa using hl
      have hdiv : 10 ^ (k + 1) / 10 = 10 ^ k := by
        rw [pow_succ, Nat.mul_div_cancel _ (by norm_num)]
      rw [hdiv, ih k hds hlen]
      have e1 : k + 1 + 1 - (d :: ds).length = k + 1 - ds.length := by simp
      rw [e1, add_mul, mul_assoc, ← pow_add]
      congr 3
      omega

theorem parseFraction_chars (ds : List Nat) (z : Zone) (hd : ∀ d ∈ ds, d ≤ 9)
    (hl : ds.length ≤ 9) :
    parseFraction (fractionChars ds ++ z.chars) = (fractionNanos ds 100000000, z.chars) := by
  cases ds with
  | nil =>
    cases z with
    | utc => decide
    | offset negative hh mm =>
      cases negative <;> simp [fractionChars, Zone.chars, twoDigits, parseFraction, fractionNanos]
  | cons d ds =>
    have h1 : isDigit (digitChar d) = true := isDigit_digitChar d (hd d (List.mem_cons_self _ _))
    have ht := takeDigits_digits (d :: ds) hd z.chars (takeDigits_zone z)
    have hk := fractionNanos_eq (d :: ds) 8 hd (by simpa using hl)
    have hlen : ((d :: ds).map digitChar).length ≤ 9 := by simpa using hl
    have e : fractionChars (d :: ds) ++ z.chars
        = '.' :: digitChar d :: (ds.map digitChar ++ z.chars) := rfl
    have e2 : digitChar d :: (ds.map digitChar ++ z.chars)
        = (d :: ds).map digitChar ++ z.chars := rfl
    rw [e]
    simp only [parseFraction, h1, true_or, and_self, if_true]
    rw [e2, ht]
    simp only []
    rw [List.take_of_length_le hlen]
    have e3 : (10 : Nat) ^ 8 = 100000000 := by norm_num
    rw [← e3, hk]
    simp

theorem parseZone_chars (z : Zone)
    (hz : match z with
      | .utc => True
      | .offset _ hh mm => hh ≤ 23 ∧ mm ≤ 59) :
    parseZone z.chars = some (z.seconds, []) := by
  cases z with
  | utc => decide
  | offset negative hh mm =>
    obtain ⟨hh23, mm59⟩ := hz
    have g1 := getnum_digits (hh / 10) (hh % 10) (by omega) (by omega) [] true
    have g2 := getnum_digits (mm / 10) (mm % 10) (by omega) (by omega) [] true
    have v1 : hh / 10 * 10 + hh % 10 = hh := by omega
    have v2 : mm / 10 * 10 + mm % 10 = mm := by omega
    rw [v1] at g1
    rw [v2] at g2
    cases negative
    · simp only [Zone.chars, twoDigits, Zone.seconds, parseZone, List.cons_append,
        List.nil_append, g1, g2]
      simp
      constructor
      · omega
      · ring
    · simp only [Zone.chars, twoDigits, Zone.seconds, parseZone, List.cons_append,
        List.nil_append, g1, g2]
      simp
      constructor
      · omega
      · ring

theorem monthLength_le (y m : Nat) : monthLength y m ≤ 31 := by
  unfold monthLength
  split <;> (try split) <;> omega

/-- `time.Parse(time.RFC3339, ·)` on the text of a timestamp in the stated ranges gives the
instant the timestamp denotes. -/
theorem timeParse_text (ts : Timestamp) (h : ts.Valid) : timeParse ts.text = .ok ts.instant := by
  obtain ⟨hy, hm1, hm12, hd1, hdm, hh, hmi, hs, hfd, hfl, hz⟩ := h
  have hd31 : ts.day ≤ 31 := le_trans hdm (monthLength_le _ _)
  have a1 : isDigit (digitChar (ts.year / 1000)) = true := isDigit_digitChar _ (by omega)
  have a2 : isDigit (digitChar (ts.year / 100 % 10)) = true := isDigit_digitChar _ (by omega)
  have a3 : isDigit (digitChar (ts.year / 10 % 10)) = true := isDigit_digitChar _ (by omega)
  have a4 : isDigit (digitChar (ts.year % 10)) = true := isDigit_digitChar _ (by omega)
  have b1 : digitVal (digitChar (ts.year / 1000)) = ts.year / 1000 :=
    digitVal_digitChar _ (by omega)
  have b2 : digitVal (digitChar (ts.year / 100 % 10)) = ts.year / 100 % 10 :=
    digitVal_digitChar _ (by omega)
  have b3 : digitVal (digitChar (ts.year / 10 % 10)) = ts.year / 10 % 10 :=
    digitVal_digitChar _ (by omega)
  have b4 : digitVal (digitChar (ts.year % 10)) = ts.year % 10 :=
    digitVal_digitChar _ (by omega)
  have hyear : digitsVal [digitChar (ts.year / 1000), digitChar (ts.year / 100 % 10),
      digitChar (ts.year / 10 % 10), digitChar (ts.year % 10)] = ts.year := by
    simp only [digitsVal, List.foldl_cons, List.foldl_nil, b1, b2, b3, b4]
    omega
  have c1 : ¬ (ts.month = 0 ∨ 12 < ts.month) := by omega
  have c2 : ¬ (24 ≤ ts.hour) := by omega
  have c3 : ¬ (60 ≤ ts.minute) := by omega
  have c4 : ¬ (60 ≤ ts.second) := by omega
  have c5 : ¬ (ts.day < 1 ∨ daysIn ts.month ts.year < ts.day) := by
    rw [daysIn_eq_monthLength ts.year ts.month hm1 hm12]
    omega
  have e : (String.mk (fourDigits ts.year ++ '-' :: (twoDigits ts.month ++ '-' :: (twoDigits ts.day
      ++ 'T' :: (twoDigits ts.hour ++ ':' :: (twoDigits ts.minute ++ ':' :: (twoDigits ts.second
      ++ (fractionChars ts.fraction ++ ts.zone.chars)))))))).toList
      = digitChar (ts.year / 1000) :: digitChar (ts.year / 100 % 10)
        :: digitChar (ts.year / 10 % 10) :: digitChar (ts.year % 10)
        :: '-' :: (twoDigits ts.month ++ '-' :: (twoDigits ts.day
      ++ 'T' :: (twoDigits ts.hour ++ ':' :: (twoDigits ts.minute ++ ':' :: (twoDigits ts.second
      ++ (fractionChars ts.fraction ++ ts.zone.chars)))))) := rfl
  unfold timeParse Timestamp.text
  rw [e]
  simp only [a1, a2, a3, a4, hyear, Bool.and_self, Bool.not_true, Bool.false_eq_true, if_false,
    skip_cons, Option.some_bind, getnum_twoDigits _ (show ts.month ≤ 99 by omega),
    getnum_twoDigits _ (show ts.day ≤ 99 by omega),
    getnum_twoDigits _ (show ts.hour ≤ 99 by omega),
    getnum_twoDigits _ (show ts.minute ≤ 99 by omega),
    getnum_twoDigits _ (show ts.second ≤ 99 by omega),
    c1, c2, c3, c4, c5, parseFraction_chars ts.fraction ts.zone hfd hfl,
    parseZone_chars ts.zone hz, ne_eq, not_true_eq_false]
  rw [Date_eq_instant ts hm1 hm12]

/-! ## The claims -/

/-- The reply of the wire contract, decoded: the timestamp of the response is what
`time.Parse` makes of the `challenge_ts` string. -/
theorem validateToken_of_timeParse (v : Validator) (token content : String)
    (ms : List (String × JSON)) (s : Bool) (t : String) (tm : Time) (h p : Option String)
    (es : Option (List String))
    (hpost : Replies v.postForm content)
    (hparse : jsonParse content = some (JSON.obj ms))
    (hms : ms.Perm (replyMembers s (some t) h p es))
    (ht : timeParse t = .ok tm) :
    (v.ValidateToken token).result
      = .returned (some { Success := s, ChallengeTimestamp := tm, Hostname := h.getD "",
                          PackageName := p.getD "", Errors := es }, none) := by
  unfold Validator.ValidateToken
  rw [doValidation_of_reply v token none content hpost, jsonUnmarshal_reply hparse hms]
  simp only [Option.getD_some, ht]

/-- C1 (counterexample): the timestamp `1990-12-31T23:59:60Z`, the leap second that RFC 3339
gives as an example, and the timestamp `2017-09-18t22:28:24z`, in the lower case RFC 3339
allows, are rejected: `ValidateToken` returns a non-nil error and a zero
`ChallengeTimestamp`.  A tenth digit of fractional second is dropped, so the timestamp
stored is not the instant written. -/
theorem leap_second_timestamp_rejected :
    ({ year := 1990, month := 12, day := 31, hour := 23, minute := 59, second := 60,
       fraction := [], zone := Zone.utc } : Timestamp).text = "1990-12-31T23:59:60Z"
    ∧ ((mockValidator leapSecondResponse).ValidateToken mockToken).result
        = .returned (some { Success := true, ChallengeTimestamp := Time.zero,
                            Hostname := "www.example.com", PackageName := "", Errors := none },
                     some (.parseError "1990-12-31T23:59:60Z"))
    ∧ ((mockValidator lowerCaseTimestampResponse).ValidateToken mockToken).result
        = .returned (some { Success := true, ChallengeTimestamp := Time.zero,
                            Hostname := "www.example.com", PackageName := "", Errors := none },
                     some (.parseError "2017-09-18t22:28:24z"))
    ∧ ((mockValidator longFractionResponse).ValidateToken mockToken).result
        = .returned (some { Success := true,
                            ChallengeTimestamp := { unixSec := 1505773704, nsec := 123456789 },
                            Hostname := "", PackageName := "", Errors := none }, none) := by
  refine ⟨?_, ?_, ?_, ?_⟩ <;> decide

/-- C1 (amended): when the transport delivers, without error, a body that is a JSON object
with a boolean `success` field `s`, a `challenge_ts` string that is the upper-case RFC 3339
text of a timestamp `ts` with a date of the calendar, hour 00-23, minute 00-59, second 00-59
(no leap second), at most nine digits of fractional second and zone `Z` or `±hh:mm`, and
optionally `hostname` `h`, `apk_package_name` `p` and `error-codes` `es` (the members in any
order), `ValidateToken` returns a nil error and a response with `Success = s`,
`ChallengeTimestamp` the instant `ts` denotes, `Hostname = h`, `PackageName = p` and
`Errors = es`; an absent `hostname` or `apk_package_name` gives the empty string and absent
`error-codes` the nil (empty) slice. -/
theorem validateToken_decodes_reply (v : Validator) (token content : String)
    (ms : List (String × JSON)) (s : Bool) (ts : Timestamp) (h p : Option String)
    (es : Option (List String))
    (hpost : Replies v.postForm content)
    (hparse : jsonParse content = some (JSON.obj ms))
    (hms : ms.Perm (replyMembers s (some ts.text) h p es))
    (hts : ts.Valid) :
    (v.ValidateToken token).result
      = .returned (some { Success := s, ChallengeTimestamp := ts.instant,
                          Hostname := h.getD "", PackageName := p.getD "", Errors := es },
                   none) :=
  validateToken_of_timeParse v token content ms s ts.text ts.instant h p es hpost hparse hms
    (timeParse_text ts hts)

/-- Witness of C1 (amended): the success reply of the test file gives `Success = true`,
`Hostname = "www.example.com"` and the instant 2017-09-18T22:28:24Z, which is
1505773704 seconds after 1970-01-01T00:00:00Z. -/
theorem validateToken_decodes_reply_witness :
    Replies (mockValidator mockSuccessResponse).postForm mockSuccessResponse
    ∧ testTimestamp.text = "2017-09-18T22:28:24Z"
    ∧ jsonParse mockSuccessResponse
        = some (JSON.obj (replyMembers true (some "2017-09-18T22:28:24Z")
            (some "www.example.com") none none))
    ∧ testTimestamp.Valid
    ∧ testTimestamp.instant = { unixSec := 1505773704, nsec := 0 }
    ∧ ((mockValidator mockSuccessResponse).ValidateToken mockToken).result
        = .returned (some { Success := true,
                            ChallengeTimestamp := { unixSec := 1505773704, nsec := 0 },
                            Hostname := "www.example.com", PackageName := "",
                            Errors := none }, none) := by
  have hvalid : testTimestamp.Valid :=
    ⟨by decide, by decide, by decide, by decide, by decide, by decide, by decide, by decide,
      by decide, by decide, trivial⟩
  have hinstant : testTimestamp.instant = { unixSec := 1505773704, nsec := 0 } := by
    simp only [Timestamp.instant, daysBeforeYear_eq]
    decide
  have hrun := validateToken_decodes_reply (mockValidator mockSuccessResponse) mockToken
    mockSuccessResponse _ true testTimestamp (some "www.example.com") none none
    (fun _ _ => rfl) (by rfl) (List.Perm.refl _) hvalid
  rw [hinstant] at hrun
  exact ⟨fun _ _ => rfl, by decide, by rfl, hvalid, hinstant, hrun⟩

/-- C2 (the code at the failing inputs): for the invalid-token reply of the test file, which
has no `challenge_ts`, and for a reply whose `challenge_ts` is the empty string,
`UnmarshalJSON` and `ValidateToken` / `ValidateTokenForIP` return the non-nil error of
`time.Parse` on the empty string, not a nil error. -/
theorem missing_timestamp_returns_error :
    ValidationResponse.zero.UnmarshalJSON mockErrorResponse
        = .returned ({ Success := false, ChallengeTimestamp := Time.zero, Hostname := "",
                       PackageName := "",
                       Errors := some ["missing-input-response", "missing-input-secret"] },
                     some (.parseError ""))
    ∧ ((mockValidator mockErrorResponse).ValidateToken mockToken).result
        = .returned (some { Success := false, ChallengeTimestamp := Time.zero, Hostname := "",
                            PackageName := "",
                            Errors := some ["missing-input-response", "missing-input-secret"] },
                     some (.parseError ""))
    ∧ ((mockValidator mockErrorResponse).ValidateTokenForIP mockToken mockIPAddress).result
        = .returned (some { Success := false, ChallengeTimestamp := Time.zero, Hostname := "",
                            PackageName := "",
                            Errors := some ["missing-input-response", "missing-input-secret"] },
                     some (.parseError ""))
    ∧ ((mockValidator emptyTimestampResponse).ValidateToken mockToken).result
        = .returned (some ValidationResponse.zero, some (.parseError "")) := by
  refine ⟨?_, ?_, ?_, ?_⟩ <;> decide

/-- C3: when the transport delivers the JSON object with the members `"success": false` and
`"error-codes": es` (in either order), for any list `es` of strings, the response returned by
`ValidateToken` is non-nil and has `Success = false` and `Errors = es`, the same strings in
the same order and number.  (The error returned with it is the one of
`missing_timestamp_returns_error`.) -/
theorem validateToken_error_codes (v : Validator) (token content : String)
    (ms : List (String × JSON)) (es : List String)
    (hpost : Replies v.postForm content)
    (hparse : jsonParse content = some (JSON.obj ms))
    (hms : ms.Perm [("success", JSON.bool false), ("error-codes", JSON.arr (es.map JSON.str))]) :
    ∃ r err, (v.ValidateToken token).result = .returned (some r, err)
      ∧ r.Success = false ∧ r.Errors = some es
      ∧ (r.Errors.getD []).length = es.length := by
  have hms2 : ms.Perm (replyMembers false none none none (some es)) := hms
  unfold Validator.ValidateToken
  rw [doValidation_of_reply v token none content hpost, jsonUnmarshal_reply hparse hms2]
  cases timeParse ((none : Option String).getD "") with
  | error e => exact ⟨_, _, rfl, rfl, rfl, rfl⟩
  | ok tm => exact ⟨_, _, rfl, rfl, rfl, rfl⟩

/-- Witness of C3: the invalid-token reply of the test file gives `Success = false` and the
two error codes in the order of the payload. -/
theorem validateToken_error_codes_witness :
    Replies (mockValidator mockErrorResponse).postForm mockErrorResponse
    ∧ jsonParse mockErrorResponse
        = some (JSON.obj [("success", JSON.bool false),
            ("error-codes",
              JSON.arr (["missing-input-response", "missing-input-secret"].map JSON.str))])
    ∧ ∃ r err, ((mockValidator mockErrorResponse).ValidateToken mockToken).result
          = .returned (some r, err)
        ∧ r.Success = false
        ∧ r.Errors = some ["missing-input-response", "missing-input-secret"]
        ∧ (r.Errors.getD []).length = 2 :=
  ⟨fun _ _ => rfl, by rfl,
    validateToken_error_codes (mockValidator mockErrorResponse) mockToken mockErrorResponse _
      ["missing-input-response", "missing-input-secret"] (fun _ _ => rfl) (by rfl)
      (List.Perm.refl _)⟩

/-- C4 (the code at the failing inputs): for a reply whose `challenge_ts` is `not-a-date`,
`ValidateToken` and `ValidateTokenForIP` return the non-nil parse error together with a
non-nil response holding the fields decoded before the failure, and for a body that is not
JSON they return the syntax error together with a non-nil, empty response; so a non-nil
error of `ValidateToken` does not always come with a nil response. -/
theorem decode_error_keeps_response :
    ((mockValidator malformedTimestampResponse).ValidateToken mockToken).result
        = .returned (some { Success := true, ChallengeTimestamp := Time.zero,
                            Hostname := "www.example.com", PackageName := "", Errors := none },
                     some (.parseError "not-a-date"))
    ∧ ((mockValidator malformedTimestampResponse).ValidateTokenForIP mockToken
          mockIPAddress).result
        = .returned (some { Success := true, ChallengeTimestamp := Time.zero,
                            Hostname := "www.example.com", PackageName := "", Errors := none },
                     some (.parseError "not-a-date"))
    ∧ ((mockValidator "<html>502 Bad Gateway</html>").ValidateToken mockToken).result
        = .returned (some ValidationResponse.zero, some .invalidJSON)
    ∧ ¬ (∀ (v : Validator) (token : String) (resp : Option ValidationResponse) (err : GoError),
          (v.ValidateToken token).result = .returned (resp, some err) → resp = none) := by
  have h : ((mockValidator malformedTimestampResponse).ValidateToken mockToken).result
      = .returned (some { Success := true, ChallengeTimestamp := Time.zero,
                          Hostname := "www.example.com", PackageName := "", Errors := none },
                   some (.parseError "not-a-date")) := by decide
  refine ⟨h, by decide, by decide, fun hall => ?_⟩
  have hnone := hall _ _ _ _ h
  cases hnone

/-- C5: when the transport delivers a JSON object whose `challenge_ts` member (the last one
stored in that field) is a non-empty string that `time.Parse(time.RFC3339, ·)` rejects,
whatever the other members are, `UnmarshalJSON` returns a non-nil error on any receiver and
leaves the receiver's timestamp as it was, and `ValidateToken` and `ValidateTokenForIP`
return that same non-nil error, the timestamp of the response being the zero value. -/
theorem malformed_timestamp_is_error (v : Validator) (token ip content : String)
    (pre post : List (String × JSON)) (s : String) (r0 : ValidationResponse)
    (hpost : Replies v.postForm content)
    (hparse : jsonParse content = some (JSON.obj (pre ++ ("challenge_ts", JSON.str s) :: post)))
    (hlast : ∀ m ∈ post, fieldFor m.1 ≠ some Field.challengeTs)
    (_hs : s ≠ "")
    (hbad : ∀ tm, timeParse s ≠ .ok tm) :
    (∃ r err, r0.UnmarshalJSON content = .returned (r, some err)
        ∧ r.ChallengeTimestamp = r0.ChallengeTimestamp)
    ∧ ∃ r err, ValidationResponse.zero.UnmarshalJSON content = .returned (r, some err)
        ∧ (v.ValidateToken token).result = .returned (some r, some err)
        ∧ (v.ValidateTokenForIP token ip).result = .returned (some r, some err)
        ∧ r.ChallengeTimestamp = Time.zero := by
  refine ⟨unmarshalJSON_malformed r0 content pre post s hparse hlast hbad, ?_⟩
  obtain ⟨r, err, hr, hts⟩ :=
    unmarshalJSON_malformed ValidationResponse.zero content pre post s hparse hlast hbad
  have hj : jsonUnmarshal content ValidationResponse.zero = .returned (r, some err) := by
    simp only [jsonUnmarshal, hparse, hr]
  refine ⟨r, err, hr, ?_, ?_, hts⟩
  · unfold Validator.ValidateToken
    rw [doValidation_of_reply v token none content hpost, hj]
  · unfold Validator.ValidateTokenForIP
    rw [doValidation_of_reply v token (some ip) content hpost, hj]

/-- Witness of C5: the reply with `challenge_ts = "not-a-date"`. -/
theorem malformed_timestamp_is_error_witness :
    Replies (mockValidator malformedTimestampResponse).postForm malformedTimestampResponse
    ∧ jsonParse malformedTimestampResponse
        = some (JSON.obj ([("success", JSON.bool true)]
            ++ ("challenge_ts", JSON.str "not-a-date")
              :: [("hostname", JSON.str "www.example.com")]))
    ∧ "not-a-date" ≠ ""
    ∧ timeParse "not-a-date" = .error (.parseError "not-a-date")
    ∧ (∃ r err, ValidationResponse.zero.UnmarshalJSON malformedTimestampResponse
          = .returned (r, some err) ∧ r.ChallengeTimestamp = ValidationResponse.zero.ChallengeTimestamp)
    ∧ ∃ r err, ValidationResponse.zero.UnmarshalJSON malformedTimestampResponse
          = .returned (r, some err)
        ∧ ((mockValidator malformedTimestampResponse).ValidateToken mockToken).result
            = .returned (some r, some err)
        ∧ ((mockValidator malformedTimestampResponse).ValidateTokenForIP mockToken
              mockIPAddress).result = .returned (some r, some err)
        ∧ r.ChallengeTimestamp = Time.zero :=
  ⟨fun _ _ => rfl, by rfl, by decide, by rfl,
    malformed_timestamp_is_error (mockValidator malformedTimestampResponse) mockToken
      mockIPAddress malformedTimestampResponse [("success", JSON.bool true)]
      [("hostname", JSON.str "www.example.com")] "not-a-date" ValidationResponse.zero
      (fun _ _ => rfl) (by rfl)
      (fun m hm => by
        rw [List.mem_singleton] at hm
        subst hm
        decide)
      (by decide)
      (fun tm htm => by
        have h : timeParse "not-a-date" = .error (.parseError "not-a-date") := by rfl
        rw [h] at htm
        cases htm)⟩

/-- C6: if the transport returns a non-nil error `e`, `ValidateToken` and
`ValidateTokenForIP` return the nil response and that same `e`, and the only event of the
run is the call of the transport: no body is read, closed or decoded. -/
theorem transport_error_passed_through (v : Validator) (token ip : String) (e : GoError)
    (hfail : ∀ url data, (v.postForm url data).2 = some e) :
    ((v.ValidateToken token).result = .returned (none, some e)
      ∧ ∃ data, (v.ValidateToken token).events = [Event.postForm siteVerifyAPIBaseURL data])
    ∧ ((v.ValidateTokenForIP token ip).result = .returned (none, some e)
      ∧ ∃ data, (v.ValidateTokenForIP token ip).events
          = [Event.postForm siteVerifyAPIBaseURL data]) :=
  ⟨⟨(doValidation_transport_error v token none e hfail).1,
      _, (doValidation_transport_error v token none e hfail).2⟩,
    ⟨(doValidation_transport_error v token (some ip) e hfail).1,
      _, (doValidation_transport_error v token (some ip) e hfail).2⟩⟩

/-- Witness of C6: a transport failing with a network error. -/
theorem transport_error_passed_through_witness :
    (∀ url data, ((failingPostForm (.foreign "dial tcp: i/o timeout")) url data).2
        = some (.foreign "dial tcp: i/o timeout"))
    ∧ (({ secretKey := mockSK, postForm := failingPostForm (.foreign "dial tcp: i/o timeout") }
          : Validator).ValidateToken mockToken).result
        = .returned (none, some (.foreign "dial tcp: i/o timeout")) :=
  ⟨fun _ _ => rfl,
    (transport_error_passed_through
      { secretKey := mockSK, postForm := failingPostForm (.foreign "dial tcp: i/o timeout") }
      mockToken mockIPAddress (.foreign "dial tcp: i/o timeout") (fun _ _ => rfl)).1.1⟩

/-- C7 (the code at the failing input): when the transport delivers the body `null`, with or
without white space around it, `ValidateToken` and `ValidateTokenForIP` panic: the inner
`json.Unmarshal` sets `auxValidationResponse` to nil and `UnmarshalJSON` then reads a field
through it.  The literal `null` is the only body on which `UnmarshalJSON` panics. -/
theorem null_body_panics :
    ValidationResponse.zero.UnmarshalJSON "null" = .panicked
    ∧ ((mockValidator "null").ValidateToken mockToken).result = .panicked
    ∧ ((mockValidator "null").ValidateTokenForIP mockToken mockIPAddress).result = .panicked
    ∧ ((mockValidator " null\n").ValidateToken mockToken).result = .panicked
    ∧ ∀ (r : ValidationResponse) (content : String),
        r.UnmarshalJSON content = .panicked ↔ jsonParse content = some JSON.null := by
  refine ⟨by decide, by decide, by decide, by decide, fun r content => ?_⟩
  exact unmarshalJSON_panicked_iff r content

/-- C8: `ValidateToken` hands the transport, in its one call, a parameter set in which
`secret` is bound to the validator's secret alone, `response` to the token alone, and no
other key is bound, `remoteip` in particular being absent; `ValidateTokenForIP` hands it a
parameter set in which moreover `remoteip` is bound to the given address alone (also when it
is the empty string), and no other key is bound. -/
theorem form_parameters (v : Validator) (token : String) :
    (∃ data, (v.ValidateToken token).posts = [(siteVerifyAPIBaseURL, data)]
      ∧ data "secret" = some [v.secretKey] ∧ data "response" = some [token]
      ∧ data "remoteip" = none
      ∧ ∀ k, data k ≠ none ↔ (k = "secret" ∨ k = "response"))
    ∧ ∀ ip : String, ∃ data,
        (v.ValidateTokenForIP token ip).posts = [(siteVerifyAPIBaseURL, data)]
      ∧ data "secret" = some [v.secretKey] ∧ data "response" = some [token]
      ∧ data "remoteip" = some [ip]
      ∧ ∀ k, data k ≠ none ↔ (k = "secret" ∨ k = "response" ∨ k = "remoteip") := by
  refine ⟨⟨_, doValidation_posts v token none, by simp [formData], by simp [formData],
      by simp [formData], fun k => ?_⟩,
    fun ip => ⟨_, doValidation_posts v token (some ip), by simp [formData],
      by simp [formData], by simp [formData], fun k => ?_⟩⟩
  · by_cases h1 : k = "secret"
    · simp [formData, h1]
    · by_cases h2 : k = "response"
      · simp [formData, h2]
      · by_cases h3 : k = "remoteip" <;> simp [formData, h1, h2, h3]
  · by_cases h1 : k = "secret"
    · simp [formData, h1]
    · by_cases h2 : k = "response"
      · simp [formData, h2]
      · by_cases h3 : k = "remoteip" <;> simp [formData, h1, h2, h3]

/-- C9: `NewReCaptchaValidator(sk)` returns a non-nil error exactly when `sk` is the empty
string, and then the validator is nil; for every other `sk` the error is nil and the
validator holds `sk` itself as its secret key (and `http.PostForm` as its transport). -/
theorem newReCaptchaValidator_spec (PostForm : httpPostForm) (sk : String) :
    ((NewReCaptchaValidator PostForm sk).2 ≠ none ↔ sk = "")
    ∧ ((NewReCaptchaValidator PostForm sk).1.isNone = true ↔ sk = "")
    ∧ (sk ≠ "" →
        NewReCaptchaValidator PostForm sk
          = (some { secretKey := sk, postForm := PostForm }, none)) := by
  by_cases h : sk = ""
  · simp [NewReCaptchaValidator, h]
  · simp [NewReCaptchaValidator, h]

/-- Witness of C9: the empty secret fails, `mockSecretKey` is stored as it is. -/
theorem newReCaptchaValidator_spec_witness :
    (NewReCaptchaValidator (mockPostForm "") "").2 ≠ none
    ∧ (NewReCaptchaValidator (mockPostForm "") "").1.isNone = true
    ∧ mockSK ≠ ""
    ∧ ((NewReCaptchaValidator (mockPostForm "") mockSK).1.map (fun val => val.secretKey))
        = some "mockSecretKey" :=
  ⟨(newReCaptchaValidator_spec (mockPostForm "") "").1.mpr rfl,
    (newReCaptchaValidator_spec (mockPostForm "") "").2.1.mpr rfl,
    by decide,
    by rw [(newReCaptchaValidator_spec (mockPostForm "") mockSK).2.2 (by decide)]; rfl⟩

/-- C10: one call of `ValidateToken` or `ValidateTokenForIP` calls the transport exactly
once, whatever the transport returns, and the URL of that call is the constant
`siteVerifyAPIBaseURL`, which is `https://www.google.com/recaptcha/api/siteverify`. -/
theorem transport_called_once (v : Validator) (token : String) :
    (v.ValidateToken token).posts.map Prod.fst = [siteVerifyAPIBaseURL]
    ∧ (∀ ip : String, (v.ValidateTokenForIP token ip).posts.map Prod.fst
        = [siteVerifyAPIBaseURL])
    ∧ siteVerifyAPIBaseURL = "https://www.google.com/recaptcha/api/siteverify" := by
  refine ⟨?_, fun ip => ?_, rfl⟩
  · unfold Validator.ValidateToken
    rw [doValidation_posts]
    rfl
  · unfold Validator.ValidateTokenForIP
    rw [doValidation_posts]
    rfl

end Recaptcha
